import Mathlib

/-!
Verification of the component scope and update-scheduling engine
(src/yew/src/html/scope.rs).

The engine is embedded shallowly: machine state (the shared cell holding an
optional component state record, and the scheduler queue) is passed
explicitly, and each scheduled unit's run method becomes a pure function
from the cell content to a new cell content together with a trace of
observable effects (hook invocations on the component instance, node
reference operations, diff/patch engine calls). External collaborators
(the component's hooks and the diff/patch engine) are parameters gathered
in a ComponentImpl record. NodeRef values and DOM elements are identified
by natural numbers since only their identity and sharing matter here.
-/

namespace YewScope

/-- Virtual tree nodes as seen by this module: either an opaque non-component
root, or a nested-component placeholder (VComp) carrying the child
component's node reference id. -/
inductive VNode (Node : Type) where
  | vtag (payload : Nat)
  | vcomp (node_ref : Nat)
  deriving DecidableEq, Repr

/-- Observable effects emitted while a scheduled unit runs: lifecycle hook
invocations on the component instance, node reference operations, and
invocations of the external diff/patch engine. The list order is the
temporal order of the effects. -/
inductive Event (Msg Props Node : Type) where
  | createHook (props : Props) (scope_cell : Nat)
  | updateHook (msg : Msg) (result : Bool)
  | changeHook (props : Props) (result : Bool)
  | renderHook
  | renderedHook (first_render : Bool)
  | linkRef (src dst : Nat)
  | setRef (ref : Nat) (node : Node)
  | applyCall (scope_cell : Nat) (anchor : Nat) (sibling : Option Node)
      (ancestor : Option (VNode Node))
  | dropComponent
  | detachCall (anchor : Nat)
  deriving DecidableEq, Repr

/-- Updates for a component instance (enum ComponentUpdate in the source). -/
inductive ComponentUpdate (Msg Props : Type) where
  | force
  | message (m : Msg)
  | messageBatch (ms : List Msg)
  | properties (props : Props) (node_ref : Nat)
  deriving DecidableEq, Repr

/-- Typed scope: optional parent opaque handle (identified by a Nat id) and
the shared state cell, identified by its id. Cloning a scope in the source
clones the Rc, so clones share the same cell id. -/
structure Scope where
  parent : Option Nat
  state : Nat
  deriving DecidableEq, Repr

/-- Component state record (struct ComponentState in the source): anchor
element, node reference id, back-reference scope, owned component instance,
optional previous rendered tree and the rendered flag. -/
structure ComponentState (Model Node : Type) where
  element : Nat
  node_ref : Nat
  scope : Scope
  component : Model
  last_root : Option (VNode Node)
  rendered : Bool
  deriving DecidableEq, Repr

/-- External collaborators: the component capability contract
(create/update/change/render/rendered hooks) and the diff/patch engine.
The create hook receives the id of the scope cell it was handed (the scope
is passed by clone in the source, so the id is the shared cell's id).
The engine receives (new root, anchor, sibling hint, previous tree) and
yields an optional concrete node. -/
structure ComponentImpl (Msg Props Model Node : Type) where
  create : Props → Nat → Model
  update : Model → Msg → Model × Bool
  change : Model → Props → Model × Bool
  render : Model → VNode Node
  renderedHook : Model → Bool → Model
  applyEngine : VNode Node → Nat → Option Node → Option (VNode Node) → Option Node

variable {Msg Props Model Node : Type}

/-- First phase of UpdateComponent::run on a non-empty cell: the match on
the payload computing should_update, returning the mutated record, the
render decision and the effect trace. A MessageBatch folds over the
messages with `state.component.update(msg) || acc`, so every message is
applied in order with no short-circuiting. A Properties payload first links
the new node ref to the record's node ref, then applies the change hook. -/
def processUpdate (C : ComponentImpl Msg Props Model Node)
    (state : ComponentState Model Node) (upd : ComponentUpdate Msg Props) :
    ComponentState Model Node × Bool × List (Event Msg Props Node) :=
  match upd with
  | ComponentUpdate.force => (state, true, [])
  | ComponentUpdate.message m =>
      let r := C.update state.component m
      ({ state with component := r.1 }, r.2, [Event.updateHook m r.2])
  | ComponentUpdate.messageBatch ms =>
      let r := ms.foldl
        (fun (acc : Model × Bool × List (Event Msg Props Node)) m =>
          let u := C.update acc.1 m
          (u.1, u.2 || acc.2.1, acc.2.2 ++ [Event.updateHook m u.2]))
        (state.component, false, [])
      ({ state with component := r.1 }, r.2.1, r.2.2)
  | ComponentUpdate.properties props node_ref =>
      let r := C.change state.component props
      ({ state with component := r.1 }, r.2,
        [Event.linkRef node_ref state.node_ref, Event.changeHook props r.2])

/-- Second phase of UpdateComponent::run: if should_update is true, reset
the rendered flag, call the render hook, take the previous tree, invoke the
diff/patch engine with (scope, anchor, sibling hint none, previous tree);
set the node ref if a concrete node results, otherwise link it to a nested
component root's node ref; store the new tree as last_root. If
should_update is false, do nothing. -/
def renderIfNeeded (C : ComponentImpl Msg Props Model Node)
    (state : ComponentState Model Node) (should_update : Bool) :
    ComponentState Model Node × List (Event Msg Props Node) :=
  if should_update then
    let state1 := { state with rendered := false }
    let root := C.render state1.component
    let last_root := state1.last_root
    let res := C.applyEngine root state1.element none last_root
    let baseEvs : List (Event Msg Props Node) :=
      [Event.renderHook,
       Event.applyCall state1.scope.state state1.element none last_root]
    match res, root with
    | some node, _ =>
        ({ state1 with last_root := some root },
          baseEvs ++ [Event.setRef state1.node_ref node])
    | none, VNode.vcomp child_ref =>
        ({ state1 with last_root := some root },
          baseEvs ++ [Event.linkRef state1.node_ref child_ref])
    | none, VNode.vtag p =>
        ({ state1 with last_root := some (VNode.vtag p) }, baseEvs)
  else (state, [])

/-- Runnable for UpdateComponent: on an empty cell, no-op; otherwise compute
should_update from the payload and render if needed. -/
def UpdateComponent.run (C : ComponentImpl Msg Props Model Node)
    (cell : Option (ComponentState Model Node))
    (upd : ComponentUpdate Msg Props) :
    Option (ComponentState Model Node) × List (Event Msg Props Node) :=
  match cell with
  | none => (none, [])
  | some state =>
      let p := processUpdate C state upd
      let r := renderIfNeeded C p.1 p.2.1
      (some r.1, p.2.2 ++ r.2)

/-- Runnable for RenderedComponent: on an empty cell, no-op; otherwise, if
the rendered flag is false, set it and invoke the post-render hook with the
first_render flag, else no-op. -/
def RenderedComponent.run (C : ComponentImpl Msg Props Model Node)
    (cell : Option (ComponentState Model Node)) (first_render : Bool) :
    Option (ComponentState Model Node) × List (Event Msg Props Node) :=
  match cell with
  | none => (none, [])
  | some state =>
      if !state.rendered then
        (some { state with
                  rendered := true
                  component := C.renderedHook state.component first_render },
          [Event.renderedHook first_render])
      else (some state, [])

/-- Runnable for DestroyComponent: on an empty cell, no-op; otherwise take
the record out of the cell, drop the component instance, and detach the
last rendered tree from the anchor when one exists. -/
def DestroyComponent.run (cell : Option (ComponentState Model Node)) :
    Option (ComponentState Model Node) × List (Event Msg Props Node) :=
  match cell with
  | none => (none, [])
  | some state =>
      (none, Event.dropComponent ::
        (match state.last_root with
         | some _ => [Event.detachCall state.element]
         | none => []))

/-- Sequential application of a batch of messages: each message is applied
to the instance resulting from the previous one, and the per-message
results are collected in order. Used to characterize the MessageBatch fold. -/
def batchApply (C : ComponentImpl Msg Props Model Node) :
    Model → List Msg → Model × List Bool
  | c, [] => (c, [])
  | c, m :: ms =>
      let u := C.update c m
      let r := batchApply C u.1 ms
      (r.1, u.2 :: r.2)

/-- Queue class tags used when handing a runnable to the external scheduler
(enum ComponentRunnableType in the scheduler crate). -/
inductive ComponentRunnableType where
  | update
  | rendered
  | destroy
  deriving DecidableEq, Repr

/-- Scheduled units as data: each captures a clone of the shared state cell
(its id) together with its payload. -/
inductive Runnable (Msg Props : Type) where
  | updateComp (state : Nat) (upd : ComponentUpdate Msg Props)
  | renderedComp (state : Nat) (first_render : Bool)
  | destroyComp (state : Nat)
  deriving DecidableEq, Repr

/-- The external scheduler's intake, observed as the FIFO list of
(queue class, unit) pushes made through scheduler().push_comp. -/
def pushComp (sched : List (ComponentRunnableType × Runnable Msg Props))
    (ty : ComponentRunnableType) (r : Runnable Msg Props) :
    List (ComponentRunnableType × Runnable Msg Props) :=
  sched ++ [(ty, r)]

/-- Scope::rendered — schedules a RenderedComponent unit carrying a clone of
the shared cell and the first_render flag. -/
def Scope.rendered (self : Scope)
    (sched : List (ComponentRunnableType × Runnable Msg Props))
    (first_render : Bool) :
    List (ComponentRunnableType × Runnable Msg Props) :=
  pushComp sched ComponentRunnableType.rendered
    (Runnable.renderedComp self.state first_render)

/-- Scope::update — schedules an UpdateComponent unit carrying a clone of
the shared cell and the payload, then calls Scope::rendered with
first_update as the first_render flag. -/
def Scope.update (self : Scope)
    (sched : List (ComponentRunnableType × Runnable Msg Props))
    (upd : ComponentUpdate Msg Props) (first_update : Bool) :
    List (ComponentRunnableType × Runnable Msg Props) :=
  Scope.rendered self
    (pushComp sched ComponentRunnableType.update
      (Runnable.updateComp self.state upd))
    first_update

/-- Scope::destroy — schedules a DestroyComponent unit carrying a clone of
the shared cell. -/
def Scope.destroy (self : Scope)
    (sched : List (ComponentRunnableType × Runnable Msg Props)) :
    List (ComponentRunnableType × Runnable Msg Props) :=
  pushComp sched ComponentRunnableType.destroy
    (Runnable.destroyComp self.state)

/-- Scope::send_message — calls update with a Message payload and
first_update = false. -/
def Scope.send_message (self : Scope)
    (sched : List (ComponentRunnableType × Runnable Msg Props)) (m : Msg) :
    List (ComponentRunnableType × Runnable Msg Props) :=
  Scope.update self sched (ComponentUpdate.message m) false

/-- Scope::send_message_batch — calls update with a MessageBatch payload
and first_update = false. -/
def Scope.send_message_batch (self : Scope)
    (sched : List (ComponentRunnableType × Runnable Msg Props))
    (ms : List Msg) :
    List (ComponentRunnableType × Runnable Msg Props) :=
  Scope.update self sched (ComponentUpdate.messageBatch ms) false

/-- ComponentState::new — constructs the component instance via the
external create hook, handing it a clone of the scope (sharing the same
cell), and builds the record with the given ancestor as last_root and the
rendered flag false. Returns the record and the effect trace. -/
def ComponentState.new (C : ComponentImpl Msg Props Model Node)
    (element : Nat) (ancestor : Option (VNode Node)) (node_ref : Nat)
    (scope : Scope) (props : Props) :
    ComponentState Model Node × List (Event Msg Props Node) :=
  ({ element := element
     node_ref := node_ref
     scope := scope
     component := C.create props scope.state
     last_root := ancestor
     rendered := false },
   [Event.createHook props scope.state])

/-- Scope::mount_in_place — installs a fresh state record into the scope's
cell, schedules a Force update with first_update = true, and returns the
scope. The result is (new cell content, new scheduler queue, returned
scope, effect trace). -/
def Scope.mount_in_place (C : ComponentImpl Msg Props Model Node)
    (self : Scope)
    (sched : List (ComponentRunnableType × Runnable Msg Props))
    (element : Nat) (ancestor : Option (VNode Node)) (node_ref : Nat)
    (props : Props) :
    Option (ComponentState Model Node) ×
      List (ComponentRunnableType × Runnable Msg Props) × Scope ×
      List (Event Msg Props Node) :=
  let r := ComponentState.new C element ancestor node_ref self props
  (some r.1, Scope.update self sched ComponentUpdate.force true, self, r.2)

/-- Untyped scope (struct AnyScope): component kind tag, optional parent,
and the type-erased state cell. The erased Rc<dyn Any> is modelled by the
dynamic type tag of the stored Shared cell together with the cell id; the
From impl is the only constructor in the file and keeps the kind tag and
the dynamic type in sync. -/
structure AnyScope where
  type_id : Nat
  parent : Option Nat
  state_type : Nat
  state_cell : Nat
  deriving DecidableEq, Repr

/-- From<Scope<COMP>> for AnyScope: records TypeId::of::<COMP> as the kind
tag and erases the shared cell; the erased value's dynamic type is
determined by COMP, so both tags are the same component kind token. -/
def AnyScope.ofScope (type_id : Nat) (scope : Scope) : AnyScope :=
  { type_id := type_id
    parent := scope.parent
    state_type := type_id
    state_cell := scope.state }

/-- AnyScope::downcast — attempts to downcast into a typed scope. The
downcast_ref on the erased cell succeeds exactly when the dynamic type
matches the requested component kind; the expect on a mismatch is the none
branch here. On success the Shared cell is cloned, so the typed scope
shares the same cell, and the parent is carried over. -/
def AnyScope.downcast (requested : Nat) (self : AnyScope) : Option Scope :=
  if self.state_type = requested then
    some { parent := self.parent, state := self.state_cell }
  else none

/-- Predicate picking out update-hook invocations in an effect trace. -/
def isUpdateHook : Event Msg Props Node → Bool
  | Event.updateHook _ _ => true
  | _ => false

/-- Interior-mutability cell: the value together with whether a mutable
borrow is currently outstanding (re-entrant access during a unit's run). -/
structure RefCellState (α : Type) where
  value : α
  mutably_borrowed : Bool
  deriving DecidableEq, Repr

/-- RefCell::try_borrow().ok() — a read borrow succeeds exactly when no
mutable borrow is outstanding. -/
def tryBorrow (rc : RefCellState α) : Option α :=
  if rc.mutably_borrowed then none else some rc.value

/-- Scope::get_component — try_borrow the cell, return none when the borrow
fails or the cell is empty, otherwise a read-only view of the component
instance. A pure read: the cell is not written. -/
def Scope.get_component
    (rc : RefCellState (Option (ComponentState Model Node))) : Option Model :=
  (tryBorrow rc).bind fun state => state.map fun s => s.component

/-! Helper lemmas. -/

/-- Folding boolean results with the accumulation step of the MessageBatch
fold computes the disjunction of the accumulator with all results. -/
lemma foldl_or_eq_any (bs : List Bool) : ∀ acc : Bool,
    bs.foldl (fun a b => b || a) acc = (acc || bs.any fun b => b) := by
  induction bs with
  | nil => intro acc; simp
  | cons b bs ih =>
      intro acc
      rw [List.foldl_cons, ih]
      cases acc <;> cases b <;> simp

/-- Characterization of the MessageBatch fold in processUpdate: it applies
every message in submission order via batchApply, accumulates the
disjunction of the results, and appends one update-hook event per message
in order. -/
lemma messageBatch_foldl_eq (C : ComponentImpl Msg Props Model Node)
    (ms : List Msg) :
    ∀ (c : Model) (acc : Bool) (evs : List (Event Msg Props Node)),
      ms.foldl
        (fun (a : Model × Bool × List (Event Msg Props Node)) m =>
          let u := C.update a.1 m
          (u.1, u.2 || a.2.1, a.2.2 ++ [Event.updateHook m u.2]))
        (c, acc, evs) =
      ((batchApply C c ms).1,
       (batchApply C c ms).2.foldl (fun a b => b || a) acc,
       evs ++ List.zipWith Event.updateHook ms (batchApply C c ms).2) := by
  induction ms with
  | nil => intro c acc evs; simp [batchApply]
  | cons m ms ih =>
      intro c acc evs
      rw [List.foldl_cons, ih]
      simp [batchApply]

/-- The batchApply result list has one entry per message. -/
lemma batchApply_length (C : ComponentImpl Msg Props Model Node)
    (ms : List Msg) : ∀ c : Model, (batchApply C c ms).2.length = ms.length := by
  induction ms with
  | nil => intro c; simp [batchApply]
  | cons m ms ih => intro c; simp [batchApply, ih]

/-- Filtering a list of update-hook events for update hooks keeps all of
them. -/
lemma filter_updateHook_zipWith (l : List Msg) : ∀ bs : List Bool,
    ((List.zipWith (Event.updateHook : Msg → Bool → Event Msg Props Node)
        l bs).filter fun e => isUpdateHook e) =
      List.zipWith Event.updateHook l bs := by
  induction l with
  | nil => intro bs; simp
  | cons x l ih =>
      intro bs
      cases bs with
      | nil => simp
      | cons b bs =>
          rw [List.zipWith_cons_cons, List.filter_cons, ih]
          simp [isUpdateHook]

/-- The render phase emits no update-hook events. -/
lemma renderIfNeeded_filter_updateHook (C : ComponentImpl Msg Props Model Node)
    (st : ComponentState Model Node) (b : Bool) :
    ((renderIfNeeded C st b).2.filter fun e => isUpdateHook e) = [] := by
  unfold renderIfNeeded
  cases b with
  | false => simp
  | true =>
      simp only [if_true]
      split <;> simp [isUpdateHook]

/-! Claim theorems. -/

/-- C1: when an Update unit with a MessageBatch payload runs on a non-empty
state cell, the update hook is invoked exactly once per message of the
batch in submission order (the trace's update-hook events are exactly one
per message, in order, with the per-message results, and the batch has one
result per message), every message is applied (the component ends as the
sequential batchApply of all messages, with no short-circuiting), and the
render decision handed to the render phase is the disjunction of the
per-message results. -/
theorem messageBatch_in_order_no_shortcircuit
    (C : ComponentImpl Msg Props Model Node)
    (st : ComponentState Model Node) (ms : List Msg) :
    UpdateComponent.run C (some st) (ComponentUpdate.messageBatch ms) =
      (some (renderIfNeeded C
          { st with component := (batchApply C st.component ms).1 }
          ((batchApply C st.component ms).2.any fun b => b)).1,
        List.zipWith Event.updateHook ms (batchApply C st.component ms).2 ++
          (renderIfNeeded C
            { st with component := (batchApply C st.component ms).1 }
            ((batchApply C st.component ms).2.any fun b => b)).2) ∧
    (batchApply C st.component ms).2.length = ms.length ∧
    ((UpdateComponent.run C (some st)
        (ComponentUpdate.messageBatch ms)).2.filter fun e => isUpdateHook e) =
      List.zipWith Event.updateHook ms (batchApply C st.component ms).2 := by
  have hmain : UpdateComponent.run C (some st)
      (ComponentUpdate.messageBatch ms) =
      (some (renderIfNeeded C
          { st with component := (batchApply C st.component ms).1 }
          ((batchApply C st.component ms).2.any fun b => b)).1,
        List.zipWith Event.updateHook ms (batchApply C st.component ms).2 ++
          (renderIfNeeded C
            { st with component := (batchApply C st.component ms).1 }
            ((batchApply C st.component ms).2.any fun b => b)).2) := by
    show (let p := processUpdate C st (ComponentUpdate.messageBatch ms)
          let r := renderIfNeeded C p.1 p.2.1
          (some r.1, p.2.2 ++ r.2)) = _
    simp only [processUpdate]
    rw [messageBatch_foldl_eq, foldl_or_eq_any]
    simp
  refine ⟨hmain, batchApply_length C ms st.component, ?_⟩
  rw [hmain]
  simp only [List.filter_append, renderIfNeeded_filter_updateHook,
    List.append_nil]
  exact filter_updateHook_zipWith ms (batchApply C st.component ms).2

/-- C2: each of the three scheduled unit kinds, run while the state cell is
empty, is a complete no-op: no hook is invoked (empty effect trace) and the
cell remains empty. -/
theorem stale_units_noop (C : ComponentImpl Msg Props Model Node)
    (upd : ComponentUpdate Msg Props) (fr : Bool) :
    UpdateComponent.run C none upd = (none, []) ∧
    RenderedComponent.run C none fr = (none, []) ∧
    @DestroyComponent.run Msg Props Model Node none = (none, []) :=
  ⟨rfl, rfl, rfl⟩

/-- C3: a Rendered unit on a non-empty cell with the rendered flag false
sets the flag and invokes the post-render hook exactly once with its
first-render flag; on a set flag it is a no-op; hence two consecutive
Rendered units without an intervening render fire the hook exactly once
(zero times when the flag was already set). -/
theorem rendered_once_per_cycle (C : ComponentImpl Msg Props Model Node)
    (st : ComponentState Model Node) (fr fr2 : Bool) :
    RenderedComponent.run C (some st) fr =
      (if st.rendered then (some st, [])
       else
        (some { st with
                  rendered := true
                  component := C.renderedHook st.component fr },
          [Event.renderedHook fr])) ∧
    ((RenderedComponent.run C (some st) fr).2 ++
        (RenderedComponent.run C
          (RenderedComponent.run C (some st) fr).1 fr2).2).length =
      (if st.rendered then 0 else 1) := by
  cases h : st.rendered <;>
    simp [RenderedComponent.run, h]

/-- C4: an Update unit on a non-empty cell processes the payload and then
runs the render phase on the result. When the render decision is true, the
render phase resets the rendered flag, calls the render hook once, takes
the previous tree, invokes the diff/patch engine with (scope, anchor, no
sibling hint, previous tree), then stores a resulting concrete node into
the node reference — or, when the engine yields nothing and the new root
is a nested-component placeholder, links the node reference to that child's
node reference — and finally stores the new tree as the previous tree.
When the decision is false, the state and trace are unchanged. -/
theorem update_render_steps (C : ComponentImpl Msg Props Model Node)
    (st : ComponentState Model Node) (upd : ComponentUpdate Msg Props) :
    UpdateComponent.run C (some st) upd =
      (some (renderIfNeeded C (processUpdate C st upd).1
          (processUpdate C st upd).2.1).1,
        (processUpdate C st upd).2.2 ++
          (renderIfNeeded C (processUpdate C st upd).1
            (processUpdate C st upd).2.1).2) ∧
    renderIfNeeded C st false = (st, []) ∧
    renderIfNeeded C st true =
      ({ st with
           rendered := false
           last_root := some (C.render st.component) },
        [Event.renderHook,
         Event.applyCall st.scope.state st.element none st.last_root] ++
          (match C.applyEngine (C.render st.component) st.element none
              st.last_root, C.render st.component with
           | some node, _ => [Event.setRef st.node_ref node]
           | none, VNode.vcomp child_ref =>
               [Event.linkRef st.node_ref child_ref]
           | none, VNode.vtag _ => [])) := by
  refine ⟨rfl, rfl, ?_⟩
  simp only [renderIfNeeded, if_true]
  split <;> simp_all

/-- C6: mount_in_place constructs the instance via the external create hook
handing it a clone of the scope (the hook receives the shared cell's id),
installs the state record with the rendered flag false and the given
ancestor as previous tree, schedules a Force update with first_update true
(an Update unit with the Force payload followed by a Rendered unit with
first_render true), and returns the scope itself. -/
theorem mount_in_place_spec (C : ComponentImpl Msg Props Model Node)
    (self : Scope) (sched : List (ComponentRunnableType × Runnable Msg Props))
    (element : Nat) (ancestor : Option (VNode Node)) (node_ref : Nat)
    (props : Props) :
    Scope.mount_in_place C self sched element ancestor node_ref props =
      (some { element := element
              node_ref := node_ref
              scope := self
              component := C.create props self.state
              last_root := ancestor
              rendered := false },
       sched ++
         [(ComponentRunnableType.update,
           Runnable.updateComp self.state ComponentUpdate.force),
          (ComponentRunnableType.rendered,
           Runnable.renderedComp self.state true)],
       self,
       [Event.createHook props self.state]) := by
  simp [Scope.mount_in_place, ComponentState.new, Scope.update,
    Scope.rendered, pushComp]

/-- C7: an Update unit with a Properties payload on a non-empty cell first
links the new node reference to the record's existing node reference and
then applies the props via the change hook (the trace lists the link ahead
of the change-hook invocation), and the render decision handed to the
render phase is exactly the change hook's result. -/
theorem properties_link_then_change (C : ComponentImpl Msg Props Model Node)
    (st : ComponentState Model Node) (props : Props) (new_ref : Nat) :
    UpdateComponent.run C (some st)
        (ComponentUpdate.properties props new_ref) =
      (some (renderIfNeeded C
          { st with component := (C.change st.component props).1 }
          (C.change st.component props).2).1,
        [Event.linkRef new_ref st.node_ref,
         Event.changeHook props (C.change st.component props).2] ++
          (renderIfNeeded C
            { st with component := (C.change st.component props).1 }
            (C.change st.component props).2).2) := rfl

/-- C8: update pushes exactly one Update unit carrying the scope's shared
cell and the payload, immediately followed by exactly one Rendered unit
with first_render equal to first_update; send_message and
send_message_batch are exactly update with a Message or MessageBatch
payload and first_update false. -/
theorem update_enqueues_update_then_rendered (self : Scope)
    (sched : List (ComponentRunnableType × Runnable Msg Props))
    (upd : ComponentUpdate Msg Props) (fu : Bool) (m : Msg) (ms : List Msg) :
    Scope.update self sched upd fu =
      sched ++
        [(ComponentRunnableType.update, Runnable.updateComp self.state upd),
         (ComponentRunnableType.rendered,
          Runnable.renderedComp self.state fu)] ∧
    Scope.send_message self sched m =
      Scope.update self sched (ComponentUpdate.message m) false ∧
    Scope.send_message_batch self sched ms =
      Scope.update self sched (ComponentUpdate.messageBatch ms) false := by
  refine ⟨?_, rfl, rfl⟩
  simp [Scope.update, Scope.rendered, pushComp]

/-- C9: downcasting an opaque handle built from a typed scope with the
same kind token yields exactly the original typed scope (same cell, same
parent); with a different requested kind it takes the failure branch. -/
theorem downcast_kind_token (tid tid2 : Nat) (s : Scope) :
    AnyScope.downcast tid (AnyScope.ofScope tid s) = some s ∧
    (tid2 ≠ tid → AnyScope.downcast tid (AnyScope.ofScope tid2 s) = none) := by
  constructor
  · simp [AnyScope.downcast, AnyScope.ofScope]
  · intro h
    simp [AnyScope.downcast, AnyScope.ofScope, h]

/-- Witness for the downcast theorem at concrete kind tokens 0 and 1. -/
theorem downcast_kind_token_witness :
    AnyScope.downcast 0 (AnyScope.ofScope 0 { parent := none, state := 5 }) =
        some { parent := none, state := 5 } ∧
      AnyScope.downcast 0 (AnyScope.ofScope 1 { parent := none, state := 5 }) =
        none :=
  ⟨(downcast_kind_token 0 1 { parent := none, state := 5 }).1,
   (downcast_kind_token 0 1 { parent := none, state := 5 }).2 (by decide)⟩

/-- C10: get_component returns none both when the cell is mutably borrowed
(re-entrant access during a unit's run) and when the cell is empty, and a
read-only view of the live component otherwise; it is a pure read of the
cell. -/
theorem get_component_read_only
    (rc : RefCellState (Option (ComponentState Model Node))) :
    Scope.get_component rc =
      (if rc.mutably_borrowed then none
       else rc.value.map fun s => s.component) := by
  unfold Scope.get_component tryBorrow
  cases h : rc.mutably_borrowed <;> simp [h]

/-- C5 counterexample: calling update on a scope after destroy has been
called on it does not fail — it is accepted and enqueues the Update and
Rendered units as usual (here at a concrete scope with cell id 0 and a
concrete message, the queue after destroy-then-update holds all three
units). There is no failure path in Scope::update or Scope::destroy. -/
theorem update_after_destroy_is_accepted :
    @Scope.update Bool Nat { parent := none, state := 0 }
        (@Scope.destroy Bool Nat { parent := none, state := 0 } [])
        (ComponentUpdate.message true) false =
      [(ComponentRunnableType.destroy, Runnable.destroyComp 0),
       (ComponentRunnableType.update,
        Runnable.updateComp 0 (ComponentUpdate.message true)),
       (ComponentRunnableType.rendered, Runnable.renderedComp 0 false)] := rfl

/-- C5 amended: scheduling further work on a scope after destroy() is
accepted silently — update still enqueues its Update and Rendered units —
and such late units are harmless: once the Destroy unit has emptied the
cell, they run as complete no-ops. -/
theorem update_after_destroy_silently_noops
    (C : ComponentImpl Msg Props Model Node) (self : Scope)
    (sched : List (ComponentRunnableType × Runnable Msg Props))
    (upd : ComponentUpdate Msg Props) (fu : Bool) :
    Scope.update self (Scope.destroy self sched) upd fu =
      Scope.destroy self sched ++
        [(ComponentRunnableType.update, Runnable.updateComp self.state upd),
         (ComponentRunnableType.rendered,
          Runnable.renderedComp self.state fu)] ∧
    UpdateComponent.run C none upd = (none, []) ∧
    RenderedComponent.run C none fu = (none, []) := by
  refine ⟨?_, rfl, rfl⟩
  simp [Scope.update, Scope.rendered, pushComp]

end YewScope
